import Mathlib

/-!
Verification development for the Eve conversational client.

The definitions below are a shallow embedding of the session / orchestration
core of the repository:

* `reconcileHistory` embeds `startChatWithHistory` (services/geminiService):
  the persisted message log is flattened into role-tagged turns, consecutive
  turns of equal role are merged, leading model turns are trimmed, and a
  synthetic trailing model turn is appended after a trailing user turn.
* `initializeChat` embeds the `initializeChat` function; the external SDK
  context constructor (`ai.chats.create`) is abstracted as a fallible
  argument `create`, which the catch block re-invokes with no seed turns.
* `sendRoute` / `chatMsgContent` embed the route dispatch at the top of
  `sendMessageToEve` and the construction of the chat-turn content.
* `findSelfie` / `stripSelfieAll` / `parseVisualTrigger` embed the
  visual-trigger handling of `sendMessageToEve`: the JavaScript regexes
  `\[SELFIE(?::\s*(.*?))?\]` (first match, with capture) and
  `\[SELFIE(?::\s*.*?)?\]` with the `g` flag (strip all), including the
  greedy/lazy backtracking order of the engine.
* `chatSendStep` embeds the reply/catch tail of `sendMessageToEve`.
* `applyVisualJobSuccess` / `applyVisualJobFailure` embed the completion
  handlers of the background visual job in `App.tsx` (`handleSendMessage`).

JavaScript string semantics (truthiness, `trim`, `toLowerCase` for ASCII,
the `\s` / `.` / `\w` character classes) are modelled explicitly.
-/

namespace Evelyn

/-- JavaScript `\s` (WhiteSpace plus LineTerminator). The exotic Unicode
space code points are included to match the ECMAScript class. -/
def isJsWhitespace (c : Char) : Bool :=
  c = ' ' || c = '\t' || c = '\n' || c = '\u000b' || c = '\u000c' || c = '\r' ||
  c = '\u00a0' || c = '\u1680' || ('\u2000' ≤ c && c ≤ '\u200a') ||
  c = '\u2028' || c = '\u2029' || c = '\u202f' || c = '\u205f' ||
  c = '\u3000' || c = '\ufeff'

/-- JavaScript LineTerminator: the characters NOT matched by `.`. -/
def isLineTerminator (c : Char) : Bool :=
  c = '\n' || c = '\r' || c = '\u2028' || c = '\u2029'

/-- Characters matched by `.` in a JavaScript regex without the `s` flag. -/
def isDotChar (c : Char) : Bool := !(isLineTerminator c)

/-- JavaScript `\w`: ASCII letters, digits and underscore. -/
def isWordChar (c : Char) : Bool :=
  ('a' ≤ c && c ≤ 'z') || ('A' ≤ c && c ≤ 'Z') || ('0' ≤ c && c ≤ '9') || c = '_'

/-- `startsWithChars needle hay`: `hay` begins with `needle`. -/
def startsWithChars : List Char → List Char → Bool
  | [], _ => true
  | _ :: _, [] => false
  | p :: ps, c :: cs => p = c && startsWithChars ps cs

/-- `listContainsSub needle hay`: `needle` occurs contiguously inside `hay`
(the semantics of JavaScript `String.prototype.includes`). -/
def listContainsSub (needle : List Char) : List Char → Bool
  | [] => needle.isEmpty
  | c :: cs => startsWithChars needle (c :: cs) || listContainsSub needle cs

/-- JavaScript `String.prototype.trim`, dropping `\s` characters at both ends. -/
def jsTrimList (cs : List Char) : List Char :=
  ((cs.dropWhile isJsWhitespace).reverse.dropWhile isJsWhitespace).reverse

/-- JavaScript `String.prototype.trim` on strings. -/
def jsTrim (s : String) : String := String.mk (jsTrimList s.toList)

/-- JavaScript `String.prototype.toLowerCase` (ASCII range; the source only
tests for the ASCII needles "selfie" and "you"). -/
def jsToLowerCase (s : String) : String := String.mk (s.toList.map Char.toLower)

/-- JavaScript `s.includes(needle)`. -/
def jsIncludes (s needle : String) : Bool := listContainsSub needle.toList s.toList

/-- The part of `getMimeType`'s regex `^data:(.*);base64,` after the literal
`data:`. The greedy `(.*)` (which cannot cross a line terminator) captures up
to the LAST occurrence of `;base64,` reachable through `.`-matchable
characters: the recursion prefers consuming one more `.` character over
matching `;base64,` at the current position. -/
def base64Capture : List Char → Option (List Char)
  | [] => none
  | c :: cs =>
    if isDotChar c then
      match base64Capture cs with
      | some cap => some (c :: cap)
      | none => if startsWithChars ";base64,".toList (c :: cs) then some [] else none
    else
      if startsWithChars ";base64,".toList (c :: cs) then some [] else none

/-- `getMimeType` (services/geminiService): match `^data:(.*);base64,` and
return the capture, defaulting to `image/jpeg`. -/
def getMimeType (dataUrl : String) : String :=
  let cs := dataUrl.toList
  if startsWithChars "data:".toList cs then
    match base64Capture (cs.drop 5) with
    | some cap => String.mk cap
    | none => "image/jpeg"
  else "image/jpeg"

/-- The `replace(/^data:image\/\w+;base64,/, "")` used for history images and
attachments: strip `data:image/<word chars>;base64,` when the string starts
with it (one or more word characters required), else return the string
unchanged. Because `\w` cannot match `;`, the greedy `\w+` is exactly the
maximal word-character run followed immediately by `;base64,`. -/
def stripBase64Head (s : String) : String :=
  let cs := s.toList
  if startsWithChars "data:image/".toList cs then
    let rest := cs.drop 11
    let run := rest.takeWhile isWordChar
    let after := rest.drop run.length
    if 0 < run.length && startsWithChars ";base64,".toList after then
      String.mk (after.drop 8)
    else s
  else s

/-- Message roles (types.ts). -/
inductive Role
  | user
  | model
deriving DecidableEq

/-- The persisted `Message` record (types.ts). -/
structure Message where
  id : String
  role : Role
  text : String
  image : Option String := none
  isError : Bool := false
  isImageLoading : Bool := false
deriving DecidableEq

/-- A content part of a remote-API turn: a text segment or inline binary data. -/
inductive Part
  | text (s : String)
  | inlineData (mimeType data : String)
deriving DecidableEq

/-- One reconciled turn sent to the remote conversational API. -/
structure Turn where
  role : Role
  parts : List Part
deriving DecidableEq

/-- Capability tiers (types.ts). -/
inductive ModelTier
  | free
  | pro
deriving DecidableEq

/-- The parts produced for a `user` history entry in `startChatWithHistory`:
an inline-data part when the entry carries a truthy image starting with
`data:` whose stripped payload and mime type are non-empty, followed by a
text part when the trimmed text is non-empty. -/
def userParts (h : Message) : List Part :=
  let imgParts : List Part :=
    match h.image with
    | some img =>
      if img ≠ "" && startsWithChars "data:".toList img.toList then
        let mimeType := getMimeType img
        let data := stripBase64Head img
        if data ≠ "" && mimeType ≠ "" then [Part.inlineData mimeType data] else []
      else []
    | none => []
  let textParts : List Part := if jsTrim h.text ≠ "" then [Part.text h.text] else []
  imgParts ++ textParts

/-- The single text part produced for a `model` history entry, with the
placeholder `"..."` substituted for empty text (`h.text || "..."`). -/
def modelTurnParts (h : Message) : List Part :=
  [Part.text (if h.text = "" then "..." else h.text)]

/-- The turn a single (non-error, non-dropped) entry maps to. -/
def turnOfMessage (h : Message) : Turn :=
  match h.role with
  | Role.user => Turn.mk Role.user (userParts h)
  | Role.model => Turn.mk Role.model (modelTurnParts h)

/-- The flatten loop of `startChatWithHistory`: error entries are skipped,
user entries producing zero parts are dropped, model entries always yield a
turn. -/
def flattenHistory : List Message → List Turn
  | [] => []
  | h :: rest =>
    if h.isError then flattenHistory rest
    else
      match h.role with
      | Role.user =>
        let parts := userParts h
        if 0 < parts.length then Turn.mk Role.user parts :: flattenHistory rest
        else flattenHistory rest
      | Role.model => Turn.mk Role.model (modelTurnParts h) :: flattenHistory rest

/-- The merge pass: `currentTurn` accumulates parts of consecutive turns with
the same role; on a role change the accumulated turn is emitted. -/
def mergeAux (cur : Turn) : List Turn → List Turn
  | [] => [cur]
  | t :: ts =>
    if t.role = cur.role then mergeAux (Turn.mk cur.role (cur.parts ++ t.parts)) ts
    else cur :: mergeAux t ts

/-- The merge pass over the whole flattened list (empty input merges to empty). -/
def mergeTurns : List Turn → List Turn
  | [] => []
  | t :: ts => mergeAux t ts

/-- Step 4 of `startChatWithHistory`: shift off leading `model` turns. -/
def trimLeadingModel : List Turn → List Turn
  | [] => []
  | t :: ts => if t.role = Role.model then trimLeadingModel ts else t :: ts

/-- Step 5: append a dummy model turn when the sequence ends on a user turn. -/
def ensureTrailingModel (ts : List Turn) : List Turn :=
  match ts.getLast? with
  | none => ts
  | some t =>
    if t.role = Role.user then ts ++ [Turn.mk Role.model [Part.text "..."]] else ts

/-- The full history reconciliation of `startChatWithHistory`: empty logs
yield an empty context, otherwise flatten, merge, trim and pad. (The body of
the source function is wrapped in try/catch, but every step of this pipeline
is total, so the catch arm is unreachable in the embedding.) -/
def reconcileHistory (history : List Message) : List Turn :=
  if history.isEmpty then []
  else ensureTrailingModel (trimLeadingModel (mergeTurns (flattenHistory history)))

/-- The live remote conversational context bound by `initializeChat`
(the `Chat` object of the SDK), reduced to the data the claims mention:
the tier and the seed turns it was opened with. -/
structure ChatSession where
  tier : ModelTier
  seededTurns : List Turn
deriving DecidableEq

/-- `initializeChat` (services/geminiService): the external SDK context
constructor `ai.chats.create` is abstracted as the fallible argument
`create`, invoked with the requested tier and seed turns. The try block
attempts `create tier history`; the catch block re-invokes `create` with no
seed turns (the SDK default, an empty history; the fallback also omits the
sampling configuration, which this model does not track). The catch arm
itself is NOT guarded: a failure of the second call propagates. -/
def initializeChat (create : ModelTier → List Turn → Except String ChatSession)
    (tier : ModelTier) (history : List Turn) : Except String ChatSession :=
  match create tier history with
  | Except.ok s => Except.ok s
  | Except.error _ => create tier []

/-- JavaScript truthiness of an optional string (`undefined` and the empty
string are falsy). -/
def jsTruthy : Option String → Bool
  | none => false
  | some s => s ≠ ""

/-- The three mutually exclusive execution paths of `sendMessageToEve`. -/
inductive Route
  | imageEdit
  | imageGenerate
  | chat
deriving DecidableEq

/-- The route dispatch of `sendMessageToEve`: the guard
`attachmentBase64 && forceImageGeneration` selects image editing, then
`!attachmentBase64 && forceImageGeneration` selects standalone generation,
and everything else falls through to the chat/vision route. -/
def sendRoute (attachmentBase64 : Option String) (forceImageGeneration : Bool) : Route :=
  if jsTruthy attachmentBase64 && forceImageGeneration then Route.imageEdit
  else if !jsTruthy attachmentBase64 && forceImageGeneration then Route.imageGenerate
  else Route.chat

/-- The chat-route message content (`msgContent`) of `sendMessageToEve`:
with a truthy attachment the turn carries the inline-data part (mime type
from `getMimeType`, payload with the `data:image/...;base64,` head stripped)
followed by the text; otherwise just the text. -/
def chatMsgContent (message : String) (attachmentBase64 : Option String) : List Part :=
  match attachmentBase64 with
  | some att =>
    if att ≠ "" then [Part.inlineData (getMimeType att) (stripBase64Head att), Part.text message]
    else [Part.text message]
  | none => [Part.text message]

/-- Scan for `]` through `.`-matchable characters: the lazy `(.*?)` expands
one character at a time, so the match ends at the FIRST `]` reachable without
crossing a line terminator. Returns the capture and the remainder after `]`. -/
def findCloseBracket : List Char → Option (List Char × List Char)
  | [] => none
  | c :: cs =>
    if c = ']' then some ([], cs)
    else if isDotChar c then
      match findCloseBracket cs with
      | some (cap, rest) => some (c :: cap, rest)
      | none => none
    else none

/-- Backtracking of the greedy `\s*` in `\[SELFIE(?::\s*(.*?))?\]`: try the
match with `j` whitespace characters consumed first (largest `j` first),
giving back one character at a time on failure. -/
def tryWsAux (cs1 : List Char) : Nat → Option (List Char × List Char)
  | 0 => findCloseBracket cs1
  | j + 1 =>
    match findCloseBracket (cs1.drop (j + 1)) with
    | some r => some r
    | none => tryWsAux cs1 j

/-- Match `\s*(.*?)\]` against `cs1` with the regex engine's backtracking
order: `\s*` starts at its maximal run. -/
def tryFromWs (cs1 : List Char) : Option (List Char × List Char) :=
  tryWsAux cs1 (cs1.takeWhile isJsWhitespace).length

/-- Attempt `\[SELFIE(?::\s*(.*?))?\]` at the start of `cs`. The greedy
optional group is tried first: it requires a literal `:`; if the group
cannot complete, the bare `\[SELFIE\]` form needs `]` immediately (when the
next character is `:`, that alternative necessarily fails). Returns the
optional capture (`none` = the group did not participate, so
`selfieMatch[1]` is `undefined`) and the remainder after the match. -/
def matchSelfieAt (cs : List Char) : Option (Option (List Char) × List Char) :=
  if startsWithChars "[SELFIE".toList cs then
    match cs.drop 7 with
    | ':' :: cs1 =>
      match tryFromWs cs1 with
      | some (cap, rest) => some (some cap, rest)
      | none => none
    | ']' :: rest => some (none, rest)
    | _ => none
  else none

/-- Leftmost match of `replyText.match(/\[SELFIE(?::\s*(.*?))?\]/)`: the
engine tries every start position from the left. Returns the capture of the
first successful match. -/
def findSelfie : List Char → Option (Option (List Char))
  | [] => none
  | c :: cs =>
    match matchSelfieAt (c :: cs) with
    | some (cap, _) => some cap
    | none => findSelfie cs

/-- The scan loop of `replace(/\[SELFIE(?::\s*.*?)?\]/g, "")`: copy
characters, and on a match continue after it. A fuel argument makes the
recursion structural; every match consumes at least eight characters, so
`fuel = length` never runs out (`stripSelfieFuel_congr` below shows the
result does not depend on any sufficient fuel). -/
def stripSelfieFuel : Nat → List Char → List Char
  | 0, cs => cs
  | _ + 1, [] => []
  | fuel + 1, c :: cs =>
    match matchSelfieAt (c :: cs) with
    | some (_, rest) => stripSelfieFuel fuel rest
    | none => c :: stripSelfieFuel fuel cs

/-- `replace(/\[SELFIE(?::\s*.*?)?\]/g, "")` on a character list. -/
def stripSelfieAll (cs : List Char) : List Char := stripSelfieFuel cs.length cs

/-- Negation of the source guard
`!gradioEndpoint || gradioEndpoint.trim() === ''`: an image backend is
configured when the endpoint is present, truthy and not all whitespace. -/
def gradioConfigured : Option String → Bool
  | none => false
  | some s => s ≠ "" && jsTrim s ≠ ""

/-- The fixed user-facing note appended when a selfie is triggered with no
image backend configured (services/geminiService). -/
def unavailabilityNote : String :=
  "\n\n(I tried to show you, but my visual cortex isn\x27t connected. Please configure the Gradio endpoint in settings!)"

/-- Result of the visual-trigger protocol handler: the display text and the
optional generation cue. -/
structure TriggerResult where
  text : String
  visualPrompt : Option String
deriving DecidableEq

/-- The visual-trigger protocol handler of `sendMessageToEve`: match the
`[SELFIE...]` marker, default an absent/empty capture to
`"looking at the camera"`, strip every marker occurrence and trim, and when
no image backend is configured append `unavailabilityNote` and suppress the
cue. -/
def parseVisualTrigger (replyText : String) (gradioEndpoint : Option String) : TriggerResult :=
  match findSelfie replyText.toList with
  | none => { text := replyText, visualPrompt := none }
  | some cap =>
    let visualPrompt : String :=
      match cap with
      | some c => if c.isEmpty then "looking at the camera" else String.mk c
      | none => "looking at the camera"
    let cleaned := jsTrim (String.mk (stripSelfieAll replyText.toList))
    if gradioConfigured gradioEndpoint then
      { text := cleaned, visualPrompt := some visualPrompt }
    else
      { text := cleaned ++ unavailabilityNote, visualPrompt := none }

/-- The record returned by `sendMessageToEve`. -/
structure SendResult where
  text : String
  image : Option String := none
  visualPrompt : Option String := none
  isError : Bool := false
  errorMessage : Option String := none
deriving DecidableEq

/-- The tail of the chat route of `sendMessageToEve`, given the outcome of
the remote `chatSession.sendMessage` call: a successful reply goes through
the visual-trigger handler; a rejection is caught and turned into the fixed
apologetic reply flagged as an error carrying the underlying message. The
bound session is returned unchanged in both arms (the catch block never
touches `chatSession`). -/
def chatSendStep (session : ChatSession) (outcome : Except String String)
    (gradioEndpoint : Option String) : SendResult × ChatSession :=
  match outcome with
  | Except.ok replyText =>
    let r := parseVisualTrigger replyText gradioEndpoint
    ({ text := r.text, visualPrompt := r.visualPrompt }, session)
  | Except.error e =>
    ({ text := "Connection interrupted. I\x27m still here, though.",
       isError := true, errorMessage := some e }, session)

/-- `EVE_APPEARANCE` (constants). -/
def EVE_APPEARANCE : String :=
  "Early 20s Indian woman, piercing blue eyes with soft luminosity, minimal septum ring, gold jewelry with warm glints, long wavy black hair with subtle red ends. Soft, confident, slightly teasing vibe. Photorealistic, cinematic lighting, 8k resolution."

/-- The self-portrait heuristic on the IMAGE_GENERATE route:
`message.toLowerCase().includes('selfie') || message.toLowerCase().includes('you')`. -/
def selfPortraitHeuristic (message : String) : Bool :=
  jsIncludes (jsToLowerCase message) "selfie" || jsIncludes (jsToLowerCase message) "you"

/-- What the IMAGE_GENERATE route submits: whether the prompt-rewrite call
was attempted, and the prompt handed to the image backend. -/
structure GenerationPlan where
  usedRewrite : Bool
  prompt : String
deriving DecidableEq

/-- The prompt selection of the IMAGE_GENERATE route: when the heuristic
fires, the persona template is interpolated with the raw instruction and the
rewrite call is skipped; otherwise the rewrite call is attempted and its
result (`rephraseResult`, which on rewrite failure is the raw instruction
again) is submitted. -/
def planGenerationPrompt (message : String) (rephraseResult : String) : GenerationPlan :=
  if selfPortraitHeuristic message then
    { usedRewrite := false,
      prompt := "Subject: " ++ EVE_APPEARANCE ++ ". Action: " ++ message ++ ". Style: Photorealistic, 8k." }
  else
    { usedRewrite := true, prompt := rephraseResult }

/-- The success continuation of the background visual job in `App.tsx`:
`setMessages(prev.map(m => m.id === messageId ? { ...m, image, isImageLoading: false } : m))`. -/
def applyVisualJobSuccess (msgs : List Message) (targetId : String) (img : String) : List Message :=
  msgs.map fun m =>
    if m.id = targetId then { m with image := some img, isImageLoading := false } else m

/-- The failure (and falsy-result) continuation of the background visual job:
only the pending flag is cleared on the target. -/
def applyVisualJobFailure (msgs : List Message) (targetId : String) : List Message :=
  msgs.map fun m =>
    if m.id = targetId then { m with isImageLoading := false } else m

/-- A one-entry log used as a concrete witness input. -/
def sampleLog : List Message :=
  [{ id := "1", role := Role.user, text := "hi" }]

/-- An already-valid alternating log used as a concrete witness input. -/
def sampleValidLog : List Message :=
  [{ id := "u1", role := Role.user, text := "hi" },
   { id := "m1", role := Role.model, text := "hello" }]

/-- Three messages exercising the merge rule, as a witness input. -/
def sampleMergeA : Message := { id := "a", role := Role.user, text := "one" }

def sampleMergeB : Message := { id := "b", role := Role.user, text := "two" }

def sampleMergeC : Message := { id := "c", role := Role.model, text := "three" }

/-- A two-message session used as a witness input for the visual-job patch. -/
def sampleMsgs : List Message :=
  [{ id := "1", role := Role.user, text := "hi" },
   { id := "2", role := Role.model, text := "hey!", isImageLoading := true }]

/-- A context constructor that fails on any non-empty seed and succeeds on an
empty seed, used as a witness environment for the init fallback. -/
def fallbackCreate : ModelTier → List Turn → Except String ChatSession :=
  fun tier h => if h.isEmpty then Except.ok { tier := tier, seededTurns := [] }
                else Except.error "corrupt history"

/-! ### Supporting lemmas about the reconciliation pipeline -/

theorem turnOfMessage_role (m : Message) : (turnOfMessage m).role = m.role := by
  cases h : m.role <;> simp [turnOfMessage, h]

theorem trim_head_cases (ts : List Turn) :
    trimLeadingModel ts = [] ∨
    ∃ t rest, trimLeadingModel ts = t :: rest ∧ t.role = Role.user := by
  induction ts with
  | nil => exact Or.inl rfl
  | cons t ts ih =>
    by_cases h : t.role = Role.model
    · simpa [trimLeadingModel, h] using ih
    · right
      refine ⟨t, ts, by simp [trimLeadingModel, h], ?_⟩
      cases hr : t.role
      · rfl
      · exact absurd hr h

theorem ensure_head (t : Turn) (rest : List Turn) :
    (ensureTrailingModel (t :: rest)).head? = some t := by
  unfold ensureTrailingModel
  cases h : (t :: rest).getLast? with
  | none => simp at h
  | some u => by_cases hu : u.role = Role.user <;> simp [h, hu]

theorem ensure_getLast_model (ts : List Turn) (hne : ts ≠ []) :
    (ensureTrailingModel ts).getLast?.map Turn.role = some Role.model := by
  unfold ensureTrailingModel
  cases h : ts.getLast? with
  | none => exact absurd (List.getLast?_eq_none_iff.mp h) hne
  | some u =>
    by_cases hu : u.role = Role.user
    · simp [h, hu, List.getLast?_concat]
    · have hm : u.role = Role.model := by
        cases hr : u.role
        · exact absurd hr hu
        · rfl
      simp [h, hu, hm]

theorem flattenHistory_filter (history : List Message) :
    flattenHistory (history.filter fun h => !h.isError) = flattenHistory history := by
  induction history with
  | nil => rfl
  | cons h rest ih =>
    cases he : h.isError with
    | false =>
      cases hr : h.role <;> simp [List.filter_cons, he, hr, flattenHistory, ih]
    | true => simp [List.filter_cons, he, flattenHistory, ih]

/-! ### Claim theorems -/

/-- Claim C1: for every input message log, a non-empty reconciled output of
history reconciliation starts with a turn of role `user` and ends with a
turn of role `model`. -/
theorem reconcile_alternation (history : List Message)
    (hne : reconcileHistory history ≠ []) :
    (reconcileHistory history).head?.map Turn.role = some Role.user ∧
    (reconcileHistory history).getLast?.map Turn.role = some Role.model := by
  cases hh : history.isEmpty with
  | true => exact absurd (by simp [reconcileHistory, hh]) hne
  | false =>
    have hre : reconcileHistory history =
        ensureTrailingModel (trimLeadingModel (mergeTurns (flattenHistory history))) := by
      simp [reconcileHistory, hh]
    rcases trim_head_cases (mergeTurns (flattenHistory history)) with h0 | ⟨t, rest, heq, hrole⟩
    · rw [hre, h0] at hne
      simp [ensureTrailingModel] at hne
    · rw [hre, heq]
      refine ⟨?_, ensure_getLast_model _ (by simp)⟩
      rw [ensure_head]
      simp [hrole]

/-- Witness for C1 at a concrete one-entry log. -/
theorem reconcile_alternation_witness :
    reconcileHistory sampleLog ≠ [] ∧
    (reconcileHistory sampleLog).head?.map Turn.role = some Role.user ∧
    (reconcileHistory sampleLog).getLast?.map Turn.role = some Role.model :=
  ⟨by decide, (reconcile_alternation sampleLog (by decide)).1,
    (reconcile_alternation sampleLog (by decide)).2⟩

/-- Claim C6: an entry with the error flag set contributes nothing to
reconciliation: the reconciled output coincides with the reconciliation of
the log with all error-flagged entries removed, for every input log. -/
theorem reconcile_drops_errors (history : List Message) :
    reconcileHistory history = reconcileHistory (history.filter fun h => !h.isError) := by
  cases hh : history.isEmpty with
  | true =>
    have h0 : history = [] := List.isEmpty_iff.mp hh
    subst h0; rfl
  | false =>
    cases hf : (history.filter fun h => !h.isError).isEmpty with
    | true =>
      have hfe : (history.filter fun h => !h.isError) = [] := List.isEmpty_iff.mp hf
      have hfl : flattenHistory history = [] := by
        rw [← flattenHistory_filter, hfe]
        rfl
      simp [reconcileHistory, hh, hf, hfl, mergeTurns, trimLeadingModel, ensureTrailingModel]
    | false =>
      simp [reconcileHistory, hh, hf, flattenHistory_filter]

/-- Claim C7: the logical entries `[user(A), user(B), model(C)]` (no error
flags, the user entries each producing at least one part) reconcile to
exactly two turns: `user` with the parts of A followed by the parts of B,
then `model` with the part of C. -/
theorem reconcile_merge_rule (a b c : Message)
    (hra : a.role = Role.user) (hrb : b.role = Role.user) (hrc : c.role = Role.model)
    (hea : a.isError = false) (heb : b.isError = false) (hec : c.isError = false)
    (hpa : userParts a ≠ []) (hpb : userParts b ≠ []) :
    reconcileHistory [a, b, c] =
      [Turn.mk Role.user (userParts a ++ userParts b),
       Turn.mk Role.model (modelTurnParts c)] := by
  have hla : 0 < (userParts a).length := List.length_pos.mpr hpa
  have hlb : 0 < (userParts b).length := List.length_pos.mpr hpb
  have hflat : flattenHistory [a, b, c] =
      [Turn.mk Role.user (userParts a), Turn.mk Role.user (userParts b),
       Turn.mk Role.model (modelTurnParts c)] := by
    simp [flattenHistory, hea, heb, hec, hra, hrb, hrc, hla, hlb]
  have hmerge : mergeTurns [Turn.mk Role.user (userParts a), Turn.mk Role.user (userParts b),
      Turn.mk Role.model (modelTurnParts c)] =
      [Turn.mk Role.user (userParts a ++ userParts b), Turn.mk Role.model (modelTurnParts c)] := by
    simp [mergeTurns, mergeAux]
  simp [reconcileHistory, hflat, hmerge, trimLeadingModel, ensureTrailingModel]

/-- Witness for C7 at three concrete messages. -/
theorem reconcile_merge_rule_witness :
    sampleMergeA.role = Role.user ∧ sampleMergeB.role = Role.user ∧
    sampleMergeC.role = Role.model ∧ sampleMergeA.isError = false ∧
    sampleMergeB.isError = false ∧ sampleMergeC.isError = false ∧
    userParts sampleMergeA ≠ [] ∧ userParts sampleMergeB ≠ [] ∧
    reconcileHistory [sampleMergeA, sampleMergeB, sampleMergeC] =
      [Turn.mk Role.user (userParts sampleMergeA ++ userParts sampleMergeB),
       Turn.mk Role.model (modelTurnParts sampleMergeC)] :=
  ⟨rfl, rfl, rfl, rfl, rfl, rfl, by decide, by decide,
    reconcile_merge_rule sampleMergeA sampleMergeB sampleMergeC
      rfl rfl rfl rfl rfl rfl (by decide) (by decide)⟩

theorem flatten_eq_map (history : List Message)
    (herr : ∀ m ∈ history, m.isError = false)
    (hparts : ∀ m ∈ history, m.role = Role.user → userParts m ≠ []) :
    flattenHistory history = history.map turnOfMessage := by
  induction history with
  | nil => rfl
  | cons h rest ih =>
    have hh : h.isError = false := herr h (by simp)
    have ihh := ih (fun m hm => herr m (by simp [hm])) (fun m hm => hparts m (by simp [hm]))
    cases hr : h.role with
    | user =>
      have hp : 0 < (userParts h).length := List.length_pos.mpr (hparts h (by simp) hr)
      simp [flattenHistory, hh, hr, hp, ihh, turnOfMessage]
    | model => simp [flattenHistory, hh, hr, ihh, turnOfMessage]

theorem mergeAux_alternating (ts : List Turn) : ∀ cur : Turn,
    List.Chain' (fun a b : Turn => a.role ≠ b.role) (cur :: ts) →
    mergeAux cur ts = cur :: ts := by
  induction ts with
  | nil => intro cur _; rfl
  | cons t ts ih =>
    intro cur hch
    rcases List.chain'_cons.mp hch with ⟨h1, h2⟩
    simp only [mergeAux]
    rw [if_neg (fun h => h1 h.symm), ih t h2]

theorem mergeTurns_alternating (ts : List Turn)
    (h : List.Chain' (fun a b : Turn => a.role ≠ b.role) ts) :
    mergeTurns ts = ts := by
  cases ts with
  | nil => rfl
  | cons t ts => exact mergeAux_alternating ts t h

/-- Claim C8: history reconciliation is the identity (one turn per entry,
same roles and parts) on an already-valid log: user-first, model-last,
strictly alternating, no error flags, every user entry producing at least
one part. Because the log ends on a model entry, the forced trailing
synthetic turn rule does not fire and the equality is exact. -/
theorem reconcile_idempotent (history : List Message)
    (hfirst : history.head?.map Message.role = some Role.user)
    (hlast : history.getLast?.map Message.role = some Role.model)
    (halt : List.Chain' (fun a b : Message => a.role ≠ b.role) history)
    (herr : ∀ m ∈ history, m.isError = false)
    (hparts : ∀ m ∈ history, m.role = Role.user → userParts m ≠ []) :
    reconcileHistory history = history.map turnOfMessage := by
  cases history with
  | nil => simp at hfirst
  | cons h rest =>
    have hflat := flatten_eq_map (h :: rest) herr hparts
    have hchain : List.Chain' (fun a b : Turn => a.role ≠ b.role)
        ((h :: rest).map turnOfMessage) := by
      rw [List.chain'_map]
      simpa [turnOfMessage_role] using halt
    have hmerge := mergeTurns_alternating _ hchain
    have hhead : h.role = Role.user := by simpa using hfirst
    have htrim : trimLeadingModel ((h :: rest).map turnOfMessage) =
        (h :: rest).map turnOfMessage := by
      rw [List.map_cons]
      have hu : (turnOfMessage h).role = Role.user := by rw [turnOfMessage_role, hhead]
      simp [trimLeadingModel, hu]
    have hens : ensureTrailingModel ((h :: rest).map turnOfMessage) =
        (h :: rest).map turnOfMessage := by
      cases hgl : (h :: rest).getLast? with
      | none => simp [hgl] at hlast
      | some lm =>
        have hlmrole : lm.role = Role.model := by
          rw [hgl] at hlast; simpa using hlast
        unfold ensureTrailingModel
        rw [List.getLast?_map, hgl]
        simp [turnOfMessage_role, hlmrole]
    have hres : reconcileHistory (h :: rest) =
        ensureTrailingModel (trimLeadingModel (mergeTurns (flattenHistory (h :: rest)))) := rfl
    rw [hres, hflat, hmerge, htrim, hens]

/-- Witness for C8 at a concrete already-valid two-entry log. -/
theorem reconcile_idempotent_witness :
    sampleValidLog.head?.map Message.role = some Role.user ∧
    sampleValidLog.getLast?.map Message.role = some Role.model ∧
    List.Chain' (fun a b : Message => a.role ≠ b.role) sampleValidLog ∧
    (∀ m ∈ sampleValidLog, m.isError = false) ∧
    (∀ m ∈ sampleValidLog, m.role = Role.user → userParts m ≠ []) ∧
    reconcileHistory sampleValidLog = sampleValidLog.map turnOfMessage :=
  ⟨by decide, by decide, List.chain'_pair.mpr (by decide), by decide, by decide,
    reconcile_idempotent sampleValidLog (by decide) (by decide)
      (List.chain'_pair.mpr (by decide)) (by decide) (by decide)⟩

/-- Claim C2: the route dispatch of the top-level send operation follows the
decision table over (hasAttachment, explicitGenerationIntent): attachment
with intent is IMAGE_EDIT, intent without attachment is IMAGE_GENERATE, and
no intent is CHAT regardless of attachment; a (truthy) attachment without
intent is carried as the leading inline-data part of the chat turn, never
routed to IMAGE_EDIT. -/
theorem route_table (att : Option String) (force : Bool) (m : String) :
    (jsTruthy att = true → force = true → sendRoute att force = Route.imageEdit) ∧
    (jsTruthy att = false → force = true → sendRoute att force = Route.imageGenerate) ∧
    (force = false → sendRoute att force = Route.chat) ∧
    (force = false → ∀ s, att = some s → s ≠ "" →
      chatMsgContent m att =
        [Part.inlineData (getMimeType s) (stripBase64Head s), Part.text m]) := by
  refine ⟨fun h1 h2 => ?_, fun h1 h2 => ?_, fun h1 => ?_, fun _ s hs hne => ?_⟩
  · simp [sendRoute, h1, h2]
  · simp [sendRoute, h1, h2]
  · cases ht : jsTruthy att <;> simp [sendRoute, h1, ht]
  · subst hs; simp [chatMsgContent, hne]

/-- Witness for C2 at a concrete attachment, exercising all three routes and
the vision-grounding content of the chat turn. -/
theorem route_table_witness :
    jsTruthy (some "data:image/png;base64,AA") = true ∧
    sendRoute (some "data:image/png;base64,AA") true = Route.imageEdit ∧
    sendRoute none true = Route.imageGenerate ∧
    sendRoute (some "data:image/png;base64,AA") false = Route.chat ∧
    chatMsgContent "look" (some "data:image/png;base64,AA") =
      [Part.inlineData "image/png" "AA", Part.text "look"] := by
  refine ⟨by decide, ?_, ?_, ?_, ?_⟩
  · exact (route_table (some "data:image/png;base64,AA") true "look").1 (by decide) rfl
  · exact (route_table none true "look").2.1 rfl rfl
  · exact (route_table (some "data:image/png;base64,AA") false "look").2.2.1 rfl
  · exact ((route_table (some "data:image/png;base64,AA") false "look").2.2.2 rfl
      "data:image/png;base64,AA" rfl (by decide)).trans (by decide)

/-- Claim C3: on the reply text containing the marker
`[SELFIE: red dress]`, the trigger handler returns the marker-stripped text
and the cue `red dress` when an image backend is configured, and the
stripped text with the fixed unavailability note appended and no cue when no
backend is configured. -/
theorem trigger_parse_example (ep : Option String) :
    (gradioConfigured ep = true →
      parseVisualTrigger "hey [SELFIE: red dress] bye" ep =
        { text := "hey  bye", visualPrompt := some "red dress" }) ∧
    (gradioConfigured ep = false →
      parseVisualTrigger "hey [SELFIE: red dress] bye" ep =
        { text := "hey  bye" ++ unavailabilityNote, visualPrompt := none }) := by
  have hfind : findSelfie ("hey [SELFIE: red dress] bye".toList) =
      some (some ("red dress".toList)) := by decide
  have hstrip : jsTrim (String.mk (stripSelfieAll ("hey [SELFIE: red dress] bye".toList))) =
      "hey  bye" := by decide
  constructor <;> intro h <;>
    simp [parseVisualTrigger, hfind, hstrip, h] <;> decide

/-- Witness for C3 at a concrete configured endpoint and at no endpoint. -/
theorem trigger_parse_example_witness :
    gradioConfigured (some "endpoint") = true ∧
    parseVisualTrigger "hey [SELFIE: red dress] bye" (some "endpoint") =
      { text := "hey  bye", visualPrompt := some "red dress" } ∧
    gradioConfigured none = false ∧
    parseVisualTrigger "hey [SELFIE: red dress] bye" none =
      { text := "hey  bye" ++ unavailabilityNote, visualPrompt := none } :=
  ⟨by decide, (trigger_parse_example (some "endpoint")).1 (by decide), rfl,
    (trigger_parse_example none).2 rfl⟩

/-! ### The strip loop consumes characters, so fuel = length is sufficient -/

theorem findCloseBracket_length : ∀ {cs cap rest : List Char},
    findCloseBracket cs = some (cap, rest) → rest.length < cs.length := by
  intro cs
  induction cs with
  | nil => intro cap rest h; simp [findCloseBracket] at h
  | cons c cs ih =>
    intro cap rest h
    simp only [findCloseBracket] at h
    by_cases h1 : c = ']'
    · rw [if_pos h1] at h
      simp only [Option.some.injEq, Prod.mk.injEq] at h
      rw [← h.2]
      simp
    · rw [if_neg h1] at h
      by_cases h2 : isDotChar c = true
      · rw [if_pos h2] at h
        cases hrec : findCloseBracket cs with
        | none => rw [hrec] at h; cases h
        | some pr =>
          obtain ⟨cap', rest'⟩ := pr
          rw [hrec] at h
          simp only [Option.some.injEq, Prod.mk.injEq] at h
          rw [← h.2]
          exact Nat.lt_trans (ih hrec) (by simp)
      · rw [if_neg h2] at h; cases h

theorem tryWsAux_length : ∀ (j : Nat) {cs1 cap rest : List Char},
    tryWsAux cs1 j = some (cap, rest) → rest.length < cs1.length := by
  intro j
  induction j with
  | zero =>
    intro cs1 cap rest h
    exact findCloseBracket_length (by simpa [tryWsAux] using h)
  | succ j ih =>
    intro cs1 cap rest h
    simp only [tryWsAux] at h
    cases hrec : findCloseBracket (cs1.drop (j + 1)) with
    | none => rw [hrec] at h; exact ih h
    | some pr =>
      obtain ⟨cap', rest'⟩ := pr
      rw [hrec] at h
      simp only [Option.some.injEq, Prod.mk.injEq] at h
      have h2 := findCloseBracket_length hrec
      have h3 : (cs1.drop (j + 1)).length = cs1.length - (j + 1) := List.length_drop _ _
      rw [← h.2]
      omega

theorem matchSelfieAt_length {cs : List Char} {cap : Option (List Char)} {rest : List Char}
    (h : matchSelfieAt cs = some (cap, rest)) : rest.length < cs.length := by
  unfold matchSelfieAt at h
  by_cases h0 : startsWithChars "[SELFIE".toList cs = true
  · rw [if_pos h0] at h
    split at h
    next cs1 heq =>
      cases htry : tryFromWs cs1 with
      | none => rw [htry] at h; cases h
      | some pr =>
        obtain ⟨cap', rest'⟩ := pr
        rw [htry] at h
        simp only [Option.some.injEq, Prod.mk.injEq] at h
        have h2 := tryWsAux_length _ (by simpa [tryFromWs] using htry)
        have h3 := congrArg List.length heq
        simp only [List.length_drop, List.length_cons] at h3
        rw [← h.2]
        omega
    next rest2 heq =>
      simp only [Option.some.injEq, Prod.mk.injEq] at h
      have h3 := congrArg List.length heq
      simp only [List.length_drop, List.length_cons] at h3
      rw [← h.2]
      omega
    next => cases h
  · rw [if_neg h0] at h; cases h

/-- The strip loop's result does not depend on the fuel, for any fuel at
least the length of the input; with `stripSelfieAll` running on
`fuel = length`, the fuel never runs out. -/
theorem stripSelfieFuel_congr : ∀ (f1 : Nat) (cs : List Char) (f2 : Nat),
    cs.length ≤ f1 → cs.length ≤ f2 →
    stripSelfieFuel f1 cs = stripSelfieFuel f2 cs := by
  intro f1
  induction f1 with
  | zero =>
    intro cs f2 h1 _
    have h0 : cs = [] := List.length_eq_zero.mp (Nat.le_zero.mp h1)
    subst h0
    cases f2 <;> rfl
  | succ f1 ih =>
    intro cs f2 h1 h2
    cases cs with
    | nil => cases f2 <;> rfl
    | cons c cs =>
      cases f2 with
      | zero => simp at h2
      | succ f2 =>
        simp only [stripSelfieFuel]
        cases hm : matchSelfieAt (c :: cs) with
        | none =>
          rw [ih cs f2 (by simpa using Nat.le_of_succ_le_succ h1)
            (by simpa using Nat.le_of_succ_le_succ h2)]
        | some pr =>
          obtain ⟨cap, rest⟩ := pr
          have hlt := matchSelfieAt_length hm
          simp only [List.length_cons] at hlt h1 h2
          exact ih rest f2 (by omega) (by omega)

/-! ### Remaining claim theorems -/

/-- Claim C4, counterexample: in an environment where the remote context
constructor fails on every seed (the empty one included), `initializeChat`
propagates the error and no session handle exists after the call, so the
claim as stated (an error is never propagated, for every input) fails. -/
theorem init_chat_counterexample :
    ¬ ∃ s, initializeChat (fun _ _ => Except.error "context creation failed")
        ModelTier.free [] = Except.ok s := by
  rintro ⟨s, hs⟩
  simp [initializeChat] at hs

/-- Claim C4 (amended): on failure of the seeded creation, `initializeChat`
retries exactly once with an empty turn sequence, and whenever that
empty-seeded creation succeeds, a (possibly degraded/empty-context) session
handle exists after the call; only a failure of the unguarded retry itself
propagates. -/
theorem init_chat_fallback (create : ModelTier → List Turn → Except String ChatSession)
    (tier : ModelTier) (history : List Turn)
    (hE : ∃ s, create tier [] = Except.ok s) :
    (∃ s, initializeChat create tier history = Except.ok s) ∧
    (∀ e, create tier history = Except.error e →
      initializeChat create tier history = create tier []) := by
  obtain ⟨s0, hs0⟩ := hE
  constructor
  · cases h : create tier history with
    | ok s => exact ⟨s, by simp [initializeChat, h]⟩
    | error e => exact ⟨s0, by simp [initializeChat, h, hs0]⟩
  · intro e he
    simp [initializeChat, he]

/-- Witness for the amended C4: an environment failing exactly on non-empty
seeds, where the call both retries with the empty sequence and yields a
handle. -/
theorem init_chat_fallback_witness :
    (∃ s, fallbackCreate ModelTier.free [] = Except.ok s) ∧
    (∃ s, initializeChat fallbackCreate ModelTier.free
        [Turn.mk Role.user [Part.text "hi"]] = Except.ok s) ∧
    initializeChat fallbackCreate ModelTier.free [Turn.mk Role.user [Part.text "hi"]] =
      fallbackCreate ModelTier.free [] :=
  ⟨⟨{ tier := ModelTier.free, seededTurns := [] }, rfl⟩,
    (init_chat_fallback fallbackCreate ModelTier.free
      [Turn.mk Role.user [Part.text "hi"]] ⟨_, rfl⟩).1,
    (init_chat_fallback fallbackCreate ModelTier.free
      [Turn.mk Role.user [Part.text "hi"]] ⟨_, rfl⟩).2 "corrupt history" rfl⟩

/-- Claim C5: a resolving visual job patches exactly the messages carrying
the stored target id — on success setting the image reference and clearing
the pending flag, on failure clearing only the pending flag (all other
fields, in particular the text, unchanged) — every other message is
unchanged, and when no message carries the target id the whole list is
unchanged (a no-op, not an error). -/
theorem visual_job_patch (msgs : List Message) (tid img : String) :
    ((∀ m ∈ msgs, m.id ≠ tid) →
      applyVisualJobSuccess msgs tid img = msgs ∧ applyVisualJobFailure msgs tid = msgs) ∧
    (∀ i : Nat, ∀ m : Message, msgs[i]? = some m →
      (m.id = tid →
        (applyVisualJobSuccess msgs tid img)[i]? =
          some { m with image := some img, isImageLoading := false } ∧
        (applyVisualJobFailure msgs tid)[i]? = some { m with isImageLoading := false }) ∧
      (m.id ≠ tid →
        (applyVisualJobSuccess msgs tid img)[i]? = some m ∧
        (applyVisualJobFailure msgs tid)[i]? = some m)) := by
  constructor
  · intro hall
    constructor
    · exact (List.map_congr_left fun m hm => if_neg (hall m hm)).trans (List.map_id _)
    · exact (List.map_congr_left fun m hm => if_neg (hall m hm)).trans (List.map_id _)
  · intro i m hm
    constructor
    · intro hid
      exact ⟨by simp [applyVisualJobSuccess, hm, hid],
        by simp [applyVisualJobFailure, hm, hid]⟩
    · intro hid
      exact ⟨by simp [applyVisualJobSuccess, hm, hid],
        by simp [applyVisualJobFailure, hm, hid]⟩

/-- Witness for C5: resolving against an id absent from a concrete session
leaves the message list unchanged. -/
theorem visual_job_patch_witness :
    (∀ m ∈ sampleMsgs, m.id ≠ "absent") ∧
    applyVisualJobSuccess sampleMsgs "absent" "https://x/y.png" = sampleMsgs ∧
    applyVisualJobFailure sampleMsgs "absent" = sampleMsgs :=
  ⟨by decide, ((visual_job_patch sampleMsgs "absent" "https://x/y.png").1 (by decide)).1,
    ((visual_job_patch sampleMsgs "absent" "https://x/y.png").1 (by decide)).2⟩

/-- Claim C9: when the remote chat call is rejected, the send operation
returns the single fixed apologetic reply, flagged as an error and carrying
the underlying message, with no image and no visual cue, and the bound
session is returned unchanged. -/
theorem chat_error_reply (session : ChatSession) (e : String) (ep : Option String) :
    chatSendStep session (Except.error e) ep =
      ({ text := "Connection interrupted. I\x27m still here, though.",
         image := none, visualPrompt := none, isError := true,
         errorMessage := some e }, session) := rfl

theorem startsWithChars_iff : ∀ (n h : List Char),
    startsWithChars n h = true ↔ ∃ r, h = n ++ r := by
  intro n
  induction n with
  | nil => intro h; simp [startsWithChars]
  | cons p ps ih =>
    intro h
    cases h with
    | nil => simp [startsWithChars]
    | cons c cs =>
      simp only [startsWithChars, Bool.and_eq_true, decide_eq_true_eq, ih cs]
      constructor
      · rintro ⟨rfl, r, rfl⟩
        exact ⟨r, rfl⟩
      · rintro ⟨r, hr⟩
        injection hr with h1 h2
        exact ⟨h1.symm, r, h2⟩

theorem listContainsSub_iff : ∀ (n h : List Char),
    listContainsSub n h = true ↔ ∃ l r, h = l ++ n ++ r := by
  intro n h
  induction h with
  | nil =>
    simp only [listContainsSub, List.isEmpty_iff]
    constructor
    · rintro rfl; exact ⟨[], [], rfl⟩
    · rintro ⟨l, r, hr⟩
      have h0 := hr.symm
      simp only [List.append_eq_nil] at h0
      exact h0.1.2
  | cons c cs ih =>
    simp only [listContainsSub, Bool.or_eq_true, startsWithChars_iff, ih]
    constructor
    · rintro (⟨r, hr⟩ | ⟨l, r, rfl⟩)
      · exact ⟨[], r, by simpa using hr⟩
      · exact ⟨c :: l, r, rfl⟩
    · rintro ⟨l, r, hr⟩
      cases l with
      | nil => exact Or.inl ⟨r, by simpa using hr⟩
      | cons x xs =>
        injection hr with h1 h2
        exact Or.inr ⟨xs, r, h2⟩

/-- Claim C10: the self-portrait heuristic of the IMAGE_GENERATE route is a
case-insensitive substring test: exactly when the lowercased instruction
contains "selfie" or "you", the rewrite call is skipped and the submitted
prompt interpolates the raw instruction into the fixed persona template;
for every other instruction the rewrite call is attempted and its result
submitted. -/
theorem generate_selfie_heuristic (m r : String) :
    (selfPortraitHeuristic m = true ↔
      (∃ l t, (jsToLowerCase m).toList = l ++ "selfie".toList ++ t) ∨
      (∃ l t, (jsToLowerCase m).toList = l ++ "you".toList ++ t)) ∧
    (selfPortraitHeuristic m = true →
      planGenerationPrompt m r =
        { usedRewrite := false,
          prompt := "Subject: " ++ EVE_APPEARANCE ++ ". Action: " ++ m ++
            ". Style: Photorealistic, 8k." }) ∧
    (selfPortraitHeuristic m = false →
      planGenerationPrompt m r = { usedRewrite := true, prompt := r }) := by
  refine ⟨?_, fun h => ?_, fun h => ?_⟩
  · simp [selfPortraitHeuristic, jsIncludes, Bool.or_eq_true, listContainsSub_iff]
  · simp [planGenerationPrompt, h]
  · simp [planGenerationPrompt, h]

set_option maxRecDepth 8192 in
/-- Witness for C10 at one instruction matching the heuristic and one not. -/
theorem generate_selfie_heuristic_witness :
    selfPortraitHeuristic "send me a selfie" = true ∧
    planGenerationPrompt "send me a selfie" "ignored" =
      { usedRewrite := false,
        prompt := "Subject: " ++ EVE_APPEARANCE ++
          ". Action: send me a selfie. Style: Photorealistic, 8k." } ∧
    selfPortraitHeuristic "paint a cat" = false ∧
    planGenerationPrompt "paint a cat" "rewritten prompt" =
      { usedRewrite := true, prompt := "rewritten prompt" } := by
  refine ⟨by decide, ?_, by decide, ?_⟩
  · exact ((generate_selfie_heuristic "send me a selfie" "ignored").2.1 (by decide)).trans
      (by decide)
  · exact (generate_selfie_heuristic "paint a cat" "rewritten prompt").2.2 (by decide)

end Evelyn
